import Mathlib

/-!
Verification development for the gauge template module
(`template/template.go` and the project-initialization file of package
`projectInit`).  The Go code is shallowly embedded: maps become association
lists, in-place mutation becomes functional state passing, fallible calls
return `Except`, and external collaborators (download, mirror, metadata
JSON decoding, subprocess execution, config-file loading) are supplied as
explicit environment values holding their outcomes.
-/

set_option maxRecDepth 4000

namespace Template

/-! ### Model of Go `net/url.ParseRequestURI`

The registry validation (`update` with `validate = true`) and the
initializer URL check (`checkURL`) both call `url.ParseRequestURI` from the
Go standard library.  The functions below are translated from the standard
library implementation `parse(rawURL, viaRequest := true)`: the control
character scan, the `"*"` special case, `getScheme`, the query cut, and the
rule that a scheme-less URL must be a rooted path.  Validation of the
authority and of percent escapes (which only rejects further malformed
inputs) is not modelled; the scheme is lowercased as in the original. -/

/-- Control bytes rejected by `net/url` (`stringContainsCTLByte`). -/
def isCtl (c : Char) : Bool := c.toNat < 32 || c.toNat == 127

/-- ASCII letters, the characters allowed to start a scheme. -/
def isSchemeAlpha (c : Char) : Bool :=
  (('a' ≤ c && c ≤ 'z') || ('A' ≤ c && c ≤ 'Z'))

/-- Digits and `+ - .`, allowed in a scheme after the first character. -/
def isSchemeExtra (c : Char) : Bool :=
  ('0' ≤ c && c ≤ '9') || c == '+' || c == '-' || c == '.'

/-- Model of `net/url.getScheme`: `none` is the `missing protocol scheme`
error (a leading colon), `some none` means no scheme was found (the whole
input is the rest), `some (some (sch, rest))` is a found scheme. -/
def getSchemeAux (acc : List Char) : List Char → Option (Option (String × List Char))
  | [] => some none
  | c :: cs =>
    if isSchemeAlpha c then getSchemeAux (acc ++ [c]) cs
    else if isSchemeExtra c then
      if acc.isEmpty then some none else getSchemeAux (acc ++ [c]) cs
    else if c == ':' then
      if acc.isEmpty then none else some (some (String.mk acc, cs))
    else some none

/-- The parts of a parsed request URI that this module inspects: the
(lowercased) scheme, and whether an authority component (`//...`) is
present. -/
structure URLParts where
  scheme : String
  hasAuthority : Bool
deriving DecidableEq, Repr

/-- True when the remainder after the scheme begins with `//`. -/
def slashSlash : List Char → Bool
  | '/' :: '/' :: _ => true
  | _ => false

/-- Model of `url.ParseRequestURI`: `none` is a parse error.  Mirrors the
standard library checks in order: control characters, the empty string,
`"*"`, scheme extraction, the cut at the first `?`, and the
`invalid URI for request` rejection of scheme-less non-rooted input. -/
def parseRequestURI (s : String) : Option URLParts :=
  if s.data.any isCtl then none
  else if s.data.isEmpty then none
  else if s == "*" then some ⟨"", false⟩
  else
    match getSchemeAux [] s.data with
    | none => none
    | some none =>
      let rest2 := s.data.takeWhile (fun c => c ≠ '?')
      if rest2.head? == some '/' then some ⟨"", slashSlash rest2⟩ else none
    | some (some (sch, rest)) =>
      let rest2 := rest.takeWhile (fun c => c ≠ '?')
      let schLower := String.mk (sch.data.map Char.toLower)
      if rest2.head? == some '/' then some ⟨schLower, slashSlash rest2⟩
      else some ⟨schLower, false⟩

/-- Modelled from the spec: the reading of the validation condition given by
the specification sentence, namely that the value parses as an absolute URI
with both a scheme and an authority present.  Used only to compare the
specification wording against the behaviour of `update`. -/
def specAbsoluteURI (s : String) : Bool :=
  match parseRequestURI s with
  | some u => (u.scheme != "") && u.hasAuthority
  | none => false

/-! ### The template registry (`template/template.go`) -/

/-- Lexicographic comparison of character lists by code point, the order
`sort.Strings` uses on (ASCII) Go strings.  Written as an executable
boolean so the kernel can evaluate it. -/
def strLeL : List Char → List Char → Bool
  | [], _ => true
  | _ :: _, [] => false
  | a :: as, b :: bs =>
    if a.toNat < b.toNat then true
    else if b.toNat < a.toNat then false
    else strLeL as bs

/-- The string order used for `sort.Strings` in the model. -/
def strLe (a b : String) : Prop := strLeL a.data b.data = true

instance : DecidableRel strLe := fun a b =>
  inferInstanceAs (Decidable (strLeL a.data b.data = true))

/-- Embedding of `config.Property` (key, value, description). -/
structure Property where
  key : String
  value : String
  description : String
deriving DecidableEq, Repr

/-- Embedding of `config.NewProperty`. -/
def NewProperty (k v d : String) : Property := ⟨k, v, d⟩

/-- Embedding of the `templates` struct: the map `t` becomes an association
list with unique keys and `names` is the ordered name slice. -/
structure templates where
  t : List (String × Property)
  names : List String
deriving DecidableEq, Repr

/-- Structured registry errors.  `invalidTemplateLocation k` stands for the
Go message `Failed to add template k ...` and `notFound k suggestions` for
the `cannot find a Gauge template` message, whose suggestion block is
present exactly when `suggestions` is nonempty. -/
inductive TemplateErr
  | invalidTemplateLocation (key : String)
  | notFound (key : String) (suggestions : List String)
deriving DecidableEq, Repr

/-- Go map membership test `_, ok := t.t[k]`. -/
def containsKey (l : List (String × Property)) (k : String) : Bool :=
  match l with
  | [] => false
  | p :: rest => if p.1 = k then true else containsKey rest k

/-- Go map read `t.t[k]`. -/
def lookup (l : List (String × Property)) (k : String) : Option Property :=
  match l with
  | [] => none
  | p :: rest => if p.1 = k then some p.2 else lookup rest k

/-- Go in-place value overwrite `t.t[k].Value = v`. -/
def setValue (l : List (String × Property)) (k v : String) : List (String × Property) :=
  l.map (fun p => if p.1 = k then (p.1, { p.2 with value := v }) else p)

/-- Embedding of `(*templates).update`: optional `ParseRequestURI`
validation, overwrite-or-append, then `sort.Strings(t.names)`. -/
def update (tp : templates) (k v : String) (validate : Bool) : Except TemplateErr templates :=
  if validate && (parseRequestURI v).isNone then
    .error (.invalidTemplateLocation k)
  else if containsKey tp.t k then
    .ok { t := setValue tp.t k v, names := List.insertionSort strLe tp.names }
  else
    .ok { t := tp.t ++ [(k, NewProperty k v ("Template download information for gauge " ++ k ++ " projects"))],
          names := List.insertionSort strLe (tp.names ++ [k]) }

/-- Modelled from the spec: the 2-gram sets the `closestmatch` collaborator
library builds for each lowercased word (the library is external to this
repository; the constructor call in the source fixes the bag size to 2). -/
def pairsOf : List Char → List String
  | a :: b :: rest => String.mk [a, b] :: pairsOf (b :: rest)
  | _ => []

/-- The distinct 2-grams of the lowercased string. -/
def grams2 (s : String) : List String :=
  (pairsOf (s.data.map Char.toLower)).dedup

/-- Modelled from the spec: the 2-gram similarity score between the search
word and a candidate (number of shared distinct 2-grams). -/
def score (a b : String) : Nat :=
  ((grams2 a).filter (fun g => (grams2 b).contains g)).length

/-- Modelled from the spec: `closestmatch.ClosestN` with bag size 2 — the
candidates sharing at least one 2-gram with the search word, ranked by
similarity, truncated to `n` (the library pads with empty strings, which
the caller filters out; the model simply omits them). -/
def closestN (names : List String) (k : String) (n : Nat) : List String :=
  (List.insertionSort (fun a b => score k b ≤ score k a)
      (names.filter (fun m => 0 < score k m))).take n

/-- Embedding of `(*templates).closestMatch`: take `ClosestN(k, 5)`, drop
empty matches, sort the remainder alphabetically. -/
def closestMatch (tp : templates) (k : String) : List String :=
  List.insertionSort strLe ((closestN tp.names k 5).filter (fun m => m ≠ ""))

/-- Embedding of `(*templates).get`: exact hit returns the stored value,
a miss produces the not-found error carrying the fuzzy suggestions (the
two Go message shapes collapse to one constructor whose suggestion list is
empty in the second shape). -/
def get (tp : templates) (k : String) : Except TemplateErr String :=
  match lookup tp.t k with
  | some p => .ok p.value
  | none => .error (.notFound k (closestMatch tp k))

/-- Embedding of `getProperty`: the templated URL and description. -/
def getProperty (repoName templateName : String) : Property :=
  { key := templateName,
    value := "https://github.com/getgauge/" ++ repoName ++ "/releases/latest/download/" ++ templateName ++ ".zip",
    description := "Template download information for gauge " ++ templateName ++ " projects" }

/-- The map literal built by `defaults`. -/
def defaultsProp : List (String × Property) :=
  [("dotnet", getProperty "template-dotnet" "dotnet"),
   ("java", getProperty "template-java" "java"),
   ("js", getProperty "template-js" "js"),
   ("python", getProperty "template-python" "python"),
   ("ruby", getProperty "template-ruby" "ruby"),
   ("ts", getProperty "template-ts" "ts")]

/-- Embedding of `getKeys`: the keys of the map, sorted. -/
def getKeys (prop : List (String × Property)) : List String :=
  List.insertionSort strLe (prop.map Prod.fst)

/-- Embedding of `defaults`. -/
def defaults : templates := { t := defaultsProp, names := getKeys defaultsProp }

/-- The `for k, v := range configs` loop body of `mergeTemplates`: apply
`update(k, v, false)` in sequence, propagating a failure. -/
def applyAll (tp : templates) : List (String × String) → Except TemplateErr templates
  | [] => .ok tp
  | (k, v) :: rest =>
    match update tp k v false with
    | .error e => .error e
    | .ok tp2 => applyAll tp2 rest

/-- Embedding of `mergeTemplates`.  The collaborator
`common.GetGaugeConfigurationFor` is abstracted as the `cfg` input:
`none` is the load failure (file absent or unreadable), in which case the
Go code returns the defaults with a nil error. -/
def mergeTemplates (cfg : Option (List (String × String))) : Except TemplateErr templates :=
  match cfg with
  | none => .ok defaults
  | some cs => applyAll defaults cs

/-- Modelled from the spec: semantic versions compared by the gauge
`version` package (not part of this source tree); the spec requires a
strict less-than comparison of the recorded and current versions. -/
structure SemVer where
  major : Nat
  minor : Nat
  patch : Nat
deriving DecidableEq, Repr

/-- Modelled from the spec: `version.CompareVersions(v, current, LesserThanFunc)`,
a lexicographic strict order on (major, minor, patch). -/
def semLt (a b : SemVer) : Bool :=
  a.major < b.major ||
    (a.major == b.major &&
      (a.minor < b.minor || (a.minor == b.minor && a.patch < b.patch)))

/-- Embedding of `Merge`.  `recorded` abstracts
`config.GaugeVersionInPropertiesFile` (`none` is a read or parse error, so
a missing or corrupt file).  A result of `.ok (some t)` means the snapshot
`t` was serialized and written to the properties file, `.ok none` means the
call returned without touching the file. -/
def Merge (recorded : Option SemVer) (current : SemVer)
    (cfg : Option (List (String × String))) : Except TemplateErr (Option templates) :=
  match recorded with
  | none => (mergeTemplates cfg).map some
  | some v =>
    if semLt v current then (mergeTemplates cfg).map some else .ok none

/-- Embedding of the public `Update`: merge, validated update, then write.
The boolean of the pair records whether the write step was reached, i.e.
whether the persisted file was rewritten. -/
def Update (cfg : Option (List (String × String))) (name value : String) :
    Except TemplateErr templates × Bool :=
  match mergeTemplates cfg with
  | .error e => (.error e, false)
  | .ok t =>
    match update t name value true with
    | .error e => (.error e, false)
    | .ok t2 => (.ok t2, true)

/-- Embedding of the public `Get`: merge then lookup. -/
def Get (cfg : Option (List (String × String))) (name : String) : Except TemplateErr String :=
  match mergeTemplates cfg with
  | .error e => .error e
  | .ok t => get t name

/-- Helper: a registry mutation as performed on the receiver — a failing
`update` leaves the registry as it was (the Go method returns before any
mutation when validation fails). -/
def applyOps (tp : templates) (ops : List (String × String × Bool)) : templates :=
  ops.foldl (fun acc op =>
    match update acc op.1 op.2.1 op.2.2 with
    | .ok t2 => t2
    | .error _ => acc) tp

/-- The registry invariant of the spec: `names` is exactly the key set of
the entry map, sorted ascending and duplicate-free. -/
def Inv (tp : templates) : Prop :=
  tp.names.Perm (tp.t.map Prod.fst) ∧ tp.names.Sorted strLe ∧
    (tp.t.map Prod.fst).Nodup

/-- Helper used by concrete statements: whether a registry call succeeded. -/
def isOkT (r : Except TemplateErr templates) : Bool :=
  match r with
  | .ok _ => true
  | .error _ => false

end Template

namespace ProjectInit

/-! ### The project initializer (package `projectInit`)

External collaborators — the filesystem walk, `common.AppendToFile`,
`common.MirrorDir`, `common.ReadFileContents`, `json.Unmarshal`,
`common.ExecuteSystemCommand` / `cmd.Wait`, and the download — are
abstracted as outcome values in an environment record.  The filesystem
effects the claims talk about (removal of copied top-level entries, removal
of the metadata file) are reported as an explicit action trace. -/

/-- One directory-tree entry as presented to the `filepath.Walk` callback
in `getTemplateDir`, in walk order: its path, whether it is a directory,
whether it contains the manifest marker file (`common.ManifestFile`), and
the walk error for this entry, if any. -/
structure WalkEntry where
  path : String
  isDir : Bool
  hasManifest : Bool
  errMsg : Option String
deriving DecidableEq, Repr

/-- The fold performed by the walk callback: remember the last directory
containing the manifest file; abort with the incoming error, which the
callback returns unchanged. -/
def getTemplateDirAux (acc : String) : List WalkEntry → Except String String
  | [] => .ok acc
  | e :: rest =>
    match e.errMsg with
    | some m => .error m
    | none => getTemplateDirAux (if e.isDir && e.hasManifest then e.path else acc) rest

/-- Embedding of `getTemplateDir`: `templateDir` starts out empty and the
function only returns an error when the walk itself fails. -/
def getTemplateDir (walk : List WalkEntry) : Except String String :=
  getTemplateDirAux "" walk

/-- Embedding of the `templateMetadata` struct decoded from
`metadata.json`. -/
structure templateMetadata where
  Name : String
  Description : String
  Version : String
  PostInstallCmd : String
  PostInstallMsg : String
deriving DecidableEq, Repr

/-- The failure shapes of `copyTemplateContents`, one per `return` site:
`requiredFilesMissing` is the `does not contain required files` message
wrapping a walk error, `postInstallFailed` is the
`Failed to run post install commands` message on a launch failure, and
`commandExitFailed` is the bare `cmd.Wait()` error returned on a non-zero
exit. -/
inductive CopyErr
  | requiredFilesMissing (walkErr : String)
  | gitignoreAppendFailed (e : String)
  | mirrorFailed (e : String)
  | metadataReadFailed (e : String)
  | metadataParseFailed (e : String)
  | postInstallFailed (e : String)
  | commandExitFailed (e : String)
deriving DecidableEq, Repr

/-- Filesystem removals performed by `copyTemplateContents` on the project
directory: `util.Remove` of a recorded top-level path segment during
rollback, and `util.Remove` of the metadata file on success. -/
inductive FsAction
  | removeTopLevel (entry : String)
  | removeMetadata
deriving DecidableEq, Repr

/-- Collaborator outcomes consumed by one `copyTemplateContents` call.
`mirrorResult` carries the `filesAdded` list of relative paths copied by
`common.MirrorDir`; `parseResult` is the `json.Unmarshal` outcome for the
metadata contents; `launchResult` is `common.ExecuteSystemCommand` and
`waitResult` is `cmd.Wait()`. -/
structure CopyEnv where
  walk : List WalkEntry
  hasGitignore : Bool
  appendResult : Except String Unit
  mirrorResult : Except String (List String)
  readResult : Except String String
  parseResult : Except String templateMetadata
  launchResult : Except String Unit
  waitResult : Except String Unit

/-- First path segment of a relative path, i.e. `strings.Split(file,
separator)[0]` with the Unix separator. -/
def topSegment (file : String) : String :=
  String.mk (file.data.takeWhile (fun c => c ≠ '/'))

/-- Embedding of `copyTemplateContents`: locate the template root, merge
`.gitignore`, mirror, read and decode the metadata, run the optional
post-install command (rolling back the recorded top-level segments when the
launch fails, returning the wait error unwrapped otherwise), and delete the
metadata file on success.  The second component is the trace of removals
performed on the project directory. -/
def copyTemplateContents (env : CopyEnv) : Except CopyErr Unit × List FsAction :=
  match getTemplateDir env.walk with
  | .error e => (.error (.requiredFilesMissing e), [])
  | .ok _templateDir =>
    match (if env.hasGitignore then env.appendResult else .ok ()) with
    | .error e => (.error (.gitignoreAppendFailed e), [])
    | .ok _ =>
      match env.mirrorResult with
      | .error e => (.error (.mirrorFailed e), [])
      | .ok filesAdded =>
        match env.readResult with
        | .error e => (.error (.metadataReadFailed e), [])
        | .ok _contents =>
          match env.parseResult with
          | .error e => (.error (.metadataParseFailed e), [])
          | .ok metadata =>
            if metadata.PostInstallCmd ≠ "" then
              match env.launchResult with
              | .error e =>
                (.error (.postInstallFailed e),
                 filesAdded.map (fun f => .removeTopLevel (topSegment f)))
              | .ok _ =>
                match env.waitResult with
                | .error e => (.error (.commandExitFailed e), [])
                | .ok _ => (.ok (), [.removeMetadata])
            else (.ok (), [.removeMetadata])

/-- Result of the URL gate `checkURL` (`logger.Fatalf` aborts become
result values). -/
inductive CheckResult
  | parseFailed
  | insecureRejected
  | urlOk
deriving DecidableEq, Repr

/-- Embedding of `checkURL`: parse the URL, then reject a non-`https`
scheme unless `allow_insecure_download` is set.  `allowInsecure` abstracts
`config.AllowInsecureDownload()`. -/
def checkURL (allowInsecure : Bool) (templateURL : String) : CheckResult :=
  match Template.parseRequestURI templateURL with
  | none => .parseFailed
  | some u =>
    if u.scheme != "https" && !allowInsecure then .insecureRejected else .urlOk

/-- Terminal outcomes of one initialization invocation. -/
inductive InitOutcome
  | fatalAlreadyProject
  | fatalUnknownTemplate (e : Template.TemplateErr)
  | fatalParse
  | fatalInsecure
  | downloadFailed (e : String)
  | copyFailed (e : CopyErr)
  | success
deriving DecidableEq, Repr

/-- Environment of one initialization: the `validateDirectory` outcome, the
insecure-download configuration, the `util.DownloadAndUnzip` outcome, and
the `copyTemplateContents` collaborators. -/
structure InitEnv where
  isGaugeProject : Bool
  allowInsecure : Bool
  downloadResult : Except String Unit
  copy : CopyEnv

/-- Embedding of `initializeTemplate`: download and unzip, then copy the
template contents (temporary-directory cleanup is not observable here). -/
def initializeTemplate (env : InitEnv) : InitOutcome :=
  match env.downloadResult with
  | .error e => .downloadFailed e
  | .ok _ =>
    match (copyTemplateContents env.copy).1 with
    | .error ce => .copyFailed ce
    | .ok _ => .success

/-- Embedding of `FromURL`: validate the directory, check the URL, then
initialize (the trailing best-effort `installRunner` never changes the
outcome). -/
def FromURL (env : InitEnv) (templateURL : String) : InitOutcome :=
  if env.isGaugeProject then .fatalAlreadyProject
  else
    match checkURL env.allowInsecure templateURL with
    | .parseFailed => .fatalParse
    | .insecureRejected => .fatalInsecure
    | .urlOk => initializeTemplate env

/-- Embedding of `FromTemplate`: resolve the name through the registry,
then proceed exactly as `FromURL` does. -/
def FromTemplate (env : InitEnv) (cfg : Option (List (String × String)))
    (templateName : String) : InitOutcome :=
  if env.isGaugeProject then .fatalAlreadyProject
  else
    match Template.Get cfg templateName with
    | .error e => .fatalUnknownTemplate e
    | .ok templateURL =>
      match checkURL env.allowInsecure templateURL with
      | .parseFailed => .fatalParse
      | .insecureRejected => .fatalInsecure
      | .urlOk => initializeTemplate env


/-- Concrete environment for the C1 witness: the post-install command fails
to launch after two entries were mirrored. -/
def rollbackWitEnv : CopyEnv :=
  { walk := [⟨"tmp/x", true, true, none⟩],
    hasGitignore := false,
    appendResult := .ok (),
    mirrorResult := .ok ["manifest.json", "specs/example.spec"],
    readResult := .ok "metadata-json",
    parseResult := .ok ⟨"", "", "", "npm install", "done"⟩,
    launchResult := .error "exec failure",
    waitResult := .ok () }

/-- Concrete environment refuting C1 as stated: the command launches but
exits non-zero. -/
def rollbackCexEnv : CopyEnv :=
  { walk := [⟨"tmp/x", true, true, none⟩],
    hasGitignore := false,
    appendResult := .ok (),
    mirrorResult := .ok ["manifest.json", "specs/example.spec"],
    readResult := .ok "metadata-json",
    parseResult := .ok ⟨"", "", "", "npm install", "done"⟩,
    launchResult := .ok (),
    waitResult := .error "exit status 1" }

/-- A walk of an extracted archive in which no directory contains the
manifest marker file. -/
def noManifestWalk : List WalkEntry :=
  [⟨"tmp/unzipped", true, false, none⟩, ⟨"tmp/unzipped/docs", true, false, none⟩]

/-- Environment for the C2 failing input: the walk finds no manifest, and
the subsequent mirror of the empty template-root path fails. -/
def noManifestEnv : CopyEnv :=
  { walk := noManifestWalk,
    hasGitignore := false,
    appendResult := .ok (),
    mirrorResult := .error "lstat : no such file or directory",
    readResult := .error "unreached",
    parseResult := .error "unreached",
    launchResult := .ok (),
    waitResult := .ok () }

/-- Concrete environment for the C7 witness. -/
def checkURLWitEnv : InitEnv :=
  { isGaugeProject := false,
    allowInsecure := false,
    downloadResult := .ok (),
    copy :=
      { walk := [],
        hasGitignore := false,
        appendResult := .ok (),
        mirrorResult := .ok [],
        readResult := .ok "",
        parseResult := .error "x",
        launchResult := .ok (),
        waitResult := .ok () } }

end ProjectInit

namespace Template

/-! ### Helper lemmas about the registry operations -/

theorem strLeL_total : ∀ as bs, strLeL as bs = true ∨ strLeL bs as = true := by
  intro as
  induction as with
  | nil => intro bs; left; rfl
  | cons a as ih =>
    intro bs
    cases bs with
    | nil => right; rfl
    | cons b bs' =>
      by_cases hab : a.toNat < b.toNat
      · left; simp [strLeL, hab]
      · by_cases hba : b.toNat < a.toNat
        · right; simp [strLeL, hba]
        · rcases ih bs' with h | h
          · left; simp [strLeL, hab, hba, h]
          · right; simp [strLeL, hab, hba, h]

theorem strLeL_trans :
    ∀ as bs cs, strLeL as bs = true → strLeL bs cs = true → strLeL as cs = true := by
  intro as
  induction as with
  | nil => intro bs cs _ _; rfl
  | cons a as ih =>
    intro bs cs hab hbc
    cases bs with
    | nil => simp [strLeL] at hab
    | cons b bs' =>
      cases cs with
      | nil => simp [strLeL] at hbc
      | cons c cs' =>
        simp only [strLeL] at hab hbc ⊢
        by_cases h1 : a.toNat < b.toNat
        · by_cases h2 : b.toNat < c.toNat
          · have : a.toNat < c.toNat := Nat.lt_trans h1 h2
            simp [this]
          · by_cases h3 : c.toNat < b.toNat
            · simp [h2, h3] at hbc
            · have hbc' : b.toNat = c.toNat := Nat.le_antisymm (Nat.le_of_not_lt h3) (Nat.le_of_not_lt h2)
              have : a.toNat < c.toNat := hbc' ▸ h1
              simp [this]
        · by_cases h4 : b.toNat < a.toNat
          · simp [h1, h4] at hab
          · have hab' : a.toNat = b.toNat := Nat.le_antisymm (Nat.le_of_not_lt h4) (Nat.le_of_not_lt h1)
            by_cases h2 : b.toNat < c.toNat
            · have : a.toNat < c.toNat := hab' ▸ h2
              simp [this]
            · by_cases h3 : c.toNat < b.toNat
              · simp [h2, h3] at hbc
              · simp only [h1, if_neg, h4, h2, h3] at hab hbc
                have h5 : a.toNat < c.toNat ↔ b.toNat < c.toNat := by omega
                have h6 : c.toNat < a.toNat ↔ c.toNat < b.toNat := by omega
                simp only [h5, h6, h2, h3, if_neg]
                simp at hab hbc ⊢
                exact ih bs' cs' hab hbc

@[instance] theorem strLe_isTotal : IsTotal String strLe :=
  ⟨fun a b => strLeL_total a.data b.data⟩

@[instance] theorem strLe_isTrans : IsTrans String strLe :=
  ⟨fun a b c => strLeL_trans a.data b.data c.data⟩

theorem setValue_map_fst (l : List (String × Property)) (k v : String) :
    (setValue l k v).map Prod.fst = l.map Prod.fst := by
  induction l with
  | nil => rfl
  | cons hd tl ih =>
    simp only [setValue, List.map_cons] at ih ⊢
    congr 1
    by_cases hak : hd.1 = k <;> simp [hak]

theorem containsKey_iff (l : List (String × Property)) (k : String) :
    containsKey l k = true ↔ k ∈ l.map Prod.fst := by
  induction l with
  | nil => simp [containsKey]
  | cons hd tl ih =>
    obtain ⟨a, q⟩ := hd
    by_cases hak : a = k
    · subst hak
      simp [containsKey]
    · simp [containsKey, hak, ih, Ne.symm hak]

theorem lookup_setValue_self (l : List (String × Property)) (k v : String)
    (h : containsKey l k = true) :
    ∃ p, lookup (setValue l k v) k = some p ∧ p.value = v := by
  induction l with
  | nil => simp [containsKey] at h
  | cons hd tl ih =>
    obtain ⟨a, q⟩ := hd
    by_cases hak : a = k
    · subst hak
      exact ⟨{ q with value := v }, by simp [setValue, lookup], rfl⟩
    · have h' : containsKey tl k = true := by simpa [containsKey, hak] using h
      obtain ⟨p, hp, hv⟩ := ih h'
      refine ⟨p, ?_, hv⟩
      simpa [setValue, lookup, hak] using hp

theorem lookup_append_new (l : List (String × Property)) (k : String) (p : Property)
    (h : containsKey l k = false) :
    lookup (l ++ [(k, p)]) k = some p := by
  induction l with
  | nil => simp [lookup]
  | cons hd tl ih =>
    obtain ⟨a, q⟩ := hd
    by_cases hak : a = k
    · simp [containsKey, hak] at h
    · have h' : containsKey tl k = false := by simpa [containsKey, hak] using h
      simp [lookup, hak, ih h']

theorem lookup_setValue_other (l : List (String × Property)) (k v k' : String)
    (h : k' ≠ k) :
    lookup (setValue l k v) k' = lookup l k' := by
  induction l with
  | nil => rfl
  | cons hd tl ih =>
    obtain ⟨a, q⟩ := hd
    by_cases hak : a = k
    · subst hak
      have hak' : a ≠ k' := fun he => h he.symm
      simpa [setValue, lookup, hak'] using ih
    · by_cases hak' : a = k'
      · simp [setValue, lookup, hak, hak', h]
      · simpa [setValue, lookup, hak, hak'] using ih

theorem lookup_append_other (l : List (String × Property)) (k : String) (p : Property)
    (k' : String) (h : k' ≠ k) :
    lookup (l ++ [(k, p)]) k' = lookup l k' := by
  induction l with
  | nil => simp [lookup, Ne.symm h]
  | cons hd tl ih =>
    obtain ⟨a, q⟩ := hd
    by_cases hak' : a = k'
    · simp [lookup, hak']
    · simp [lookup, hak', ih]

theorem update_ok_cases (tp : templates) (k v : String) (b : Bool) (tp' : templates)
    (h : update tp k v b = .ok tp') :
    (containsKey tp.t k = true ∧
        tp' = { t := setValue tp.t k v, names := List.insertionSort strLe tp.names }) ∨
      (containsKey tp.t k = false ∧
        tp' = { t := tp.t ++ [(k, NewProperty k v ("Template download information for gauge " ++ k ++ " projects"))],
                names := List.insertionSort strLe (tp.names ++ [k]) }) := by
  unfold update at h
  by_cases hv : (b && (parseRequestURI v).isNone) = true
  · rw [if_pos hv] at h
    simp at h
  · rw [if_neg hv] at h
    by_cases hc : containsKey tp.t k = true
    · rw [if_pos hc] at h
      left
      refine ⟨hc, ?_⟩
      injection h with h2
      exact h2.symm
    · rw [if_neg hc] at h
      right
      refine ⟨by simpa using hc, ?_⟩
      injection h with h2
      exact h2.symm

theorem update_validate_fails (tp : templates) (k v : String)
    (hv : (parseRequestURI v).isNone = true) :
    update tp k v true = .error (.invalidTemplateLocation k) := by
  unfold update
  rw [if_pos (by simp [hv])]

theorem update_false_ok (tp : templates) (k v : String) :
    ∃ tp', update tp k v false = .ok tp' := by
  by_cases hc : containsKey tp.t k = true
  · exact ⟨_, by unfold update; rw [if_neg (by simp), if_pos hc]⟩
  · exact ⟨_, by unfold update; rw [if_neg (by simp), if_neg hc]⟩

theorem update_some_ok (tp : templates) (k v : String)
    (hv : (parseRequestURI v).isSome = true) :
    ∃ tp', update tp k v true = .ok tp' := by
  have hg : ¬((true && (parseRequestURI v).isNone) = true) := by
    simp [Option.isNone_iff_eq_none]
    exact Option.isSome_iff_ne_none.mp hv
  by_cases hc : containsKey tp.t k = true
  · exact ⟨_, by unfold update; rw [if_neg hg, if_pos hc]⟩
  · exact ⟨_, by unfold update; rw [if_neg hg, if_neg hc]⟩

theorem update_ok_lookup (tp : templates) (k v : String) (b : Bool) (tp' : templates)
    (h : update tp k v b = .ok tp') :
    ∃ p, lookup tp'.t k = some p ∧ p.value = v := by
  rcases update_ok_cases tp k v b tp' h with ⟨hc, rfl⟩ | ⟨hc, rfl⟩
  · exact lookup_setValue_self tp.t k v hc
  · exact ⟨_, lookup_append_new tp.t k _ hc, rfl⟩

theorem update_ok_lookup_other (tp : templates) (k v : String) (b : Bool)
    (tp' : templates) (k' : String) (h : update tp k v b = .ok tp') (hk : k' ≠ k) :
    lookup tp'.t k' = lookup tp.t k' := by
  rcases update_ok_cases tp k v b tp' h with ⟨hc, rfl⟩ | ⟨hc, rfl⟩
  · exact lookup_setValue_other tp.t k v k' hk
  · exact lookup_append_other tp.t k _ k' hk

theorem update_ok_mapfst (tp : templates) (k v : String) (b : Bool) (tp' : templates)
    (h : update tp k v b = .ok tp') :
    tp'.t.map Prod.fst = tp.t.map Prod.fst ∨
      (containsKey tp.t k = false ∧ tp'.t.map Prod.fst = tp.t.map Prod.fst ++ [k]) := by
  rcases update_ok_cases tp k v b tp' h with ⟨hc, rfl⟩ | ⟨hc, rfl⟩
  · left
    exact setValue_map_fst tp.t k v
  · right
    exact ⟨hc, by simp [NewProperty]⟩

theorem update_ok_containsKey_mono (tp : templates) (k v : String) (b : Bool)
    (tp' : templates) (h : update tp k v b = .ok tp') (k' : String)
    (hc : containsKey tp.t k' = true) : containsKey tp'.t k' = true := by
  rcases update_ok_mapfst tp k v b tp' h with he | ⟨_, he⟩
  · rw [containsKey_iff, he]
    exact (containsKey_iff tp.t k').mp hc
  · rw [containsKey_iff, he]
    exact List.mem_append_left _ ((containsKey_iff tp.t k').mp hc)

theorem applyAll_ok (cs : List (String × String)) :
    ∀ tp, ∃ tp', applyAll tp cs = .ok tp' := by
  induction cs with
  | nil => exact fun tp => ⟨tp, rfl⟩
  | cons hd tl ih =>
    intro tp
    obtain ⟨k, v⟩ := hd
    obtain ⟨tp1, h1⟩ := update_false_ok tp k v
    obtain ⟨tp', h'⟩ := ih tp1
    exact ⟨tp', by simp only [applyAll, h1]; exact h'⟩

theorem applyAll_containsKey (cs : List (String × String)) :
    ∀ tp tp', applyAll tp cs = .ok tp' → ∀ k, containsKey tp.t k = true →
      containsKey tp'.t k = true := by
  induction cs with
  | nil =>
    intro tp tp' h k hc
    simp only [applyAll] at h
    cases h
    exact hc
  | cons hd tl ih =>
    intro tp tp' h k hc
    obtain ⟨k0, v0⟩ := hd
    obtain ⟨tp1, h1⟩ := update_false_ok tp k0 v0
    simp only [applyAll, h1] at h
    exact ih tp1 tp' h k (update_ok_containsKey_mono tp k0 v0 false tp1 h1 k hc)

theorem applyAll_lookup_frozen (cs : List (String × String)) :
    ∀ tp tp', applyAll tp cs = .ok tp' → ∀ k, k ∉ cs.map Prod.fst →
      lookup tp'.t k = lookup tp.t k := by
  induction cs with
  | nil =>
    intro tp tp' h k _
    simp only [applyAll] at h
    cases h
    rfl
  | cons hd tl ih =>
    intro tp tp' h k hk
    obtain ⟨k0, v0⟩ := hd
    obtain ⟨tp1, h1⟩ := update_false_ok tp k0 v0
    simp only [applyAll, h1] at h
    have hk0 : k ≠ k0 := fun he => hk (by simp [he])
    have htl : k ∉ tl.map Prod.fst := fun hm => hk (by simp [hm])
    rw [ih tp1 tp' h k htl]
    exact update_ok_lookup_other tp k0 v0 false tp1 k h1 hk0

theorem applyAll_lookup_win (cs : List (String × String)) :
    ∀ tp tp', applyAll tp cs = .ok tp' → (cs.map Prod.fst).Nodup →
      ∀ k v, (k, v) ∈ cs → ∃ p, lookup tp'.t k = some p ∧ p.value = v := by
  induction cs with
  | nil => intro tp tp' _ _ k v hm; simp at hm
  | cons hd tl ih =>
    intro tp tp' h hn k v hm
    obtain ⟨k0, v0⟩ := hd
    obtain ⟨tp1, h1⟩ := update_false_ok tp k0 v0
    simp only [applyAll, h1] at h
    rw [List.map_cons, List.nodup_cons] at hn
    rcases List.mem_cons.mp hm with he | htl
    · have hk : k = k0 := congrArg Prod.fst he
      have hv : v = v0 := congrArg Prod.snd he
      subst hk
      subst hv
      obtain ⟨p, hp, hpv⟩ := update_ok_lookup tp k v false tp1 h1
      refine ⟨p, ?_, hpv⟩
      rw [applyAll_lookup_frozen tl tp1 tp' h k hn.1]
      exact hp
    · exact ih tp1 tp' h hn.2 k v htl

theorem update_ok_Inv (tp : templates) (k v : String) (b : Bool) (tp' : templates)
    (h : update tp k v b = .ok tp') (hi : Inv tp) : Inv tp' := by
  obtain ⟨hperm, hsort, hnodup⟩ := hi
  rcases update_ok_cases tp k v b tp' h with ⟨hc, rfl⟩ | ⟨hc, rfl⟩
  · refine ⟨?_, List.sorted_insertionSort _ _, ?_⟩
    · show (List.insertionSort strLe tp.names).Perm ((setValue tp.t k v).map Prod.fst)
      rw [setValue_map_fst]
      exact (List.perm_insertionSort _ _).trans hperm
    · show (((setValue tp.t k v)).map Prod.fst).Nodup
      rw [setValue_map_fst]
      exact hnodup
  · have hmap : (tp.t ++ [(k, NewProperty k v ("Template download information for gauge " ++ k ++ " projects"))]).map Prod.fst
        = tp.t.map Prod.fst ++ [k] := by simp [NewProperty]
    have hk : k ∉ tp.t.map Prod.fst := fun hm => by
      rw [(containsKey_iff tp.t k).mpr hm] at hc
      exact Bool.true_eq_false.mp hc
    refine ⟨?_, List.sorted_insertionSort _ _, ?_⟩
    · show (List.insertionSort strLe (tp.names ++ [k])).Perm _
      rw [hmap]
      exact (List.perm_insertionSort _ _).trans (hperm.append_right [k])
    · show ((tp.t ++ [(k, NewProperty k v _)]).map Prod.fst).Nodup
      rw [hmap]
      simp only [List.nodup_append, List.nodup_cons, List.not_mem_nil, not_false_iff,
        List.nodup_nil, and_true, List.disjoint_singleton]
      exact ⟨hnodup, by simpa using hk⟩

theorem applyAll_Inv (cs : List (String × String)) :
    ∀ tp tp', applyAll tp cs = .ok tp' → Inv tp → Inv tp' := by
  induction cs with
  | nil =>
    intro tp tp' h hi
    simp only [applyAll] at h
    cases h
    exact hi
  | cons hd tl ih =>
    intro tp tp' h hi
    obtain ⟨k0, v0⟩ := hd
    obtain ⟨tp1, h1⟩ := update_false_ok tp k0 v0
    simp only [applyAll, h1] at h
    exact ih tp1 tp' h (update_ok_Inv tp k0 v0 false tp1 h1 hi)

theorem applyOps_Inv (ops : List (String × String × Bool)) :
    ∀ tp, Inv tp → Inv (applyOps tp ops) := by
  induction ops with
  | nil => exact fun tp hi => hi
  | cons op rest ih =>
    intro tp hi
    show Inv (applyOps _ _)
    rw [applyOps, List.foldl_cons]
    rcases hu : update tp op.1 op.2.1 op.2.2 with e | tp1
    · have : Inv (applyOps tp rest) := ih tp hi
      simpa [applyOps, hu] using this
    · have : Inv (applyOps tp1 rest) := ih tp1 (update_ok_Inv tp op.1 op.2.1 op.2.2 tp1 hu hi)
      simpa [applyOps, hu] using this

theorem mergeTemplates_ok (cfg : Option (List (String × String))) :
    ∃ t, mergeTemplates cfg = .ok t := by
  cases cfg with
  | none => exact ⟨defaults, rfl⟩
  | some cs => exact applyAll_ok cs defaults

theorem Inv_defaults : Inv defaults :=
  ⟨by decide, by decide, by decide⟩

/-! ### Claim theorems about the registry -/

/-- Claim C3 (amended): `update(key, value, validate = true)` fails with the
`InvalidTemplateLocation` error naming the key exactly when the value is
rejected by `url.ParseRequestURI` (which also accepts rooted paths and
authority-less URIs, not only scheme-plus-authority absolute URIs); on that
failure the registry is left unchanged, and whenever the value parses the
update succeeds and a subsequent `get(key)` returns the stored value. -/
theorem update_validate_spec (tp : templates) (k v : String) :
    ((parseRequestURI v).isNone = true →
      update tp k v true = .error (.invalidTemplateLocation k) ∧
      applyOps tp [(k, v, true)] = tp) ∧
    ((parseRequestURI v).isSome = true → ∃ t2, update tp k v true = .ok t2) ∧
    (∀ t2, update tp k v true = .ok t2 → get t2 k = .ok v) := by
  refine ⟨?_, ?_, ?_⟩
  · intro hv
    refine ⟨update_validate_fails tp k v hv, ?_⟩
    simp [applyOps, update_validate_fails tp k v hv]
  · exact update_some_ok tp k v
  · intro t2 h
    obtain ⟨p, hp, hval⟩ := update_ok_lookup tp k v true t2 h
    simp [get, hp, hval]

/-- Witness for C3 at a concrete invalid value. -/
theorem update_validate_witness :
    update defaults "flow" "not-a-url" true =
        .error (.invalidTemplateLocation "flow") ∧
      applyOps defaults [("flow", "not-a-url", true)] = defaults :=
  (update_validate_spec defaults "flow" "not-a-url").1 (by decide)

/-- Counterexample to C3 as stated: a rooted path has neither scheme nor
authority, so it does not parse as an absolute URI in the sense of the
claim, yet the validated update accepts it. -/
theorem update_validate_cex :
    specAbsoluteURI "/local/template.zip" = false ∧
    isOkT (update defaults "flow" "/local/template.zip" true) = true :=
  ⟨by decide, by decide⟩

/-- Claim C4: `mergeTemplates()` never fails, returns exactly the defaults
when the persisted file is absent or unreadable, always keeps every
built-in default key, and a persisted override wins for any key it
defines. -/
theorem mergeTemplates_spec :
    mergeTemplates none = .ok defaults ∧
    (∀ cfg, ∃ t, mergeTemplates cfg = .ok t) ∧
    (∀ cfg t, mergeTemplates cfg = .ok t →
      ∀ k, containsKey defaults.t k = true → containsKey t.t k = true) ∧
    (∀ cfg t k v, mergeTemplates (some cfg) = .ok t → (cfg.map Prod.fst).Nodup →
      (k, v) ∈ cfg → ∃ p, lookup t.t k = some p ∧ p.value = v) := by
  refine ⟨rfl, mergeTemplates_ok, ?_, ?_⟩
  · intro cfg t h k hk
    cases cfg with
    | none =>
      simp only [mergeTemplates] at h
      cases h
      exact hk
    | some cs =>
      simp only [mergeTemplates] at h
      exact applyAll_containsKey cs defaults t h k hk
  · intro cfg t k v h hn hm
    simp only [mergeTemplates] at h
    exact applyAll_lookup_win cfg defaults t h hn k v hm

/-- Witness for C4: a persisted override of the built-in `python` entry
wins in the merged snapshot. -/
theorem mergeTemplates_witness :
    ∃ p, lookup { t := setValue defaults.t "python" "https://mirror.example/python.zip",
                  names := List.insertionSort strLe defaults.names : templates }.t
        "python" = some p ∧ p.value = "https://mirror.example/python.zip" :=
  mergeTemplates_spec.2.2.2 [("python", "https://mirror.example/python.zip")] _
    "python" "https://mirror.example/python.zip" rfl (by decide) (by decide)

/-- Claim C5: `Merge()` leaves the persisted file untouched exactly when a
version was read from it and that version is not strictly below the current
tool version; it recomputes and rewrites the snapshot when the recorded
version is strictly lower or when the file is missing or unparseable. -/
theorem Merge_spec (recorded : Option SemVer) (current : SemVer)
    (cfg : Option (List (String × String))) :
    (∀ v, recorded = some v → semLt v current = false →
      Merge recorded current cfg = .ok none) ∧
    (∀ v, recorded = some v → semLt v current = true →
      ∃ t, Merge recorded current cfg = .ok (some t)) ∧
    (recorded = none → ∃ t, Merge recorded current cfg = .ok (some t)) := by
  refine ⟨?_, ?_, ?_⟩
  · rintro v rfl hlt
    simp [Merge, hlt]
  · rintro v rfl hlt
    obtain ⟨t, ht⟩ := mergeTemplates_ok cfg
    exact ⟨t, by simp [Merge, hlt, ht, Except.map]⟩
  · rintro rfl
    obtain ⟨t, ht⟩ := mergeTemplates_ok cfg
    exact ⟨t, by simp [Merge, ht, Except.map]⟩

/-- Witness for C5: equal versions mean no rewrite. -/
theorem Merge_witness :
    Merge (some ⟨1, 2, 3⟩) ⟨1, 2, 3⟩ none = .ok none :=
  (Merge_spec (some ⟨1, 2, 3⟩) ⟨1, 2, 3⟩ none).1 ⟨1, 2, 3⟩ rfl (by decide)

/-- Claim C6: a hit returns the stored value; a miss returns the not-found
error carrying the fuzzy suggestions, which number at most five, are drawn
from the known names, contain no empty string, are sorted alphabetically,
and are empty when no known name shares a 2-gram with the key. -/
theorem get_spec (tp : templates) (k : String) :
    (∀ p, lookup tp.t k = some p → get tp k = .ok p.value) ∧
    (lookup tp.t k = none →
      get tp k = .error (.notFound k (closestMatch tp k)) ∧
      (closestMatch tp k).length ≤ 5 ∧
      (closestMatch tp k).Sorted strLe ∧
      (∀ m ∈ closestMatch tp k, m ∈ tp.names ∧ m ≠ "") ∧
      ((∀ m ∈ tp.names, score k m = 0) → closestMatch tp k = [])) := by
  constructor
  · intro p hp
    unfold get
    rw [hp]
  · intro hn
    refine ⟨by unfold get; rw [hn], ?_, List.sorted_insertionSort _ _, ?_, ?_⟩
    · calc (closestMatch tp k).length
          = ((closestN tp.names k 5).filter (fun m => m ≠ "")).length :=
            (List.perm_insertionSort _ _).length_eq
        _ ≤ (closestN tp.names k 5).length := List.length_filter_le _ _
        _ ≤ 5 := by
            unfold closestN
            rw [List.length_take]
            exact min_le_left _ _
    · intro m hm
      have hm' := (List.perm_insertionSort strLe _).mem_iff.mp hm
      rw [List.mem_filter] at hm'
      refine ⟨?_, by simpa using hm'.2⟩
      have h1 : m ∈ List.insertionSort (fun a b => score k b ≤ score k a)
          (tp.names.filter (fun m => 0 < score k m)) :=
        List.take_subset _ _ hm'.1
      have h2 := (List.perm_insertionSort _ _).mem_iff.mp h1
      exact (List.mem_filter.mp h2).1
    · intro hall
      have hfil : tp.names.filter (fun m => 0 < score k m) = [] := by
        rw [List.filter_eq_nil_iff]
        intro m hm
        simp [hall m hm]
      unfold closestMatch closestN
      rw [hfil]
      rfl

/-- Witness for C6 at the spec example: looking up the typo `pyhton` in
the defaults suggests `python`. -/
theorem get_spec_witness :
    (get defaults "pyhton" =
        .error (.notFound "pyhton" (closestMatch defaults "pyhton")) ∧
      (closestMatch defaults "pyhton").length ≤ 5 ∧
      (closestMatch defaults "pyhton").Sorted strLe ∧
      (∀ m ∈ closestMatch defaults "pyhton", m ∈ defaults.names ∧ m ≠ "") ∧
      ((∀ m ∈ defaults.names, score "pyhton" m = 0) →
        closestMatch defaults "pyhton" = [])) ∧
    closestMatch defaults "pyhton" = ["python"] :=
  ⟨(get_spec defaults "pyhton").2 (by decide), by decide⟩

/-- Claim C8: the registry invariant — `names` is exactly the sorted,
duplicate-free key set of the entry map — holds for the defaults, for
every merged snapshot, and is preserved by any sequence of `update`
calls. -/
theorem registry_inv_spec :
    Inv defaults ∧
    (∀ cfg t, mergeTemplates cfg = .ok t → Inv t) ∧
    (∀ tp ops, Inv tp → Inv (applyOps tp ops)) := by
  refine ⟨Inv_defaults, ?_, ?_⟩
  · intro cfg t h
    cases cfg with
    | none =>
      simp only [mergeTemplates] at h
      cases h
      exact Inv_defaults
    | some cs =>
      simp only [mergeTemplates] at h
      exact applyAll_Inv cs defaults t h Inv_defaults
  · intro tp ops hi
    exact applyOps_Inv ops tp hi

/-- Witness for C8: the invariant after a concrete validated addition. -/
theorem registry_inv_witness :
    Inv (applyOps defaults [("flow", "https://example.com/flow.zip", true)]) :=
  registry_inv_spec.2.2 defaults [("flow", "https://example.com/flow.zip", true)]
    ⟨by decide, by decide, by decide⟩

/-- Claim C9: the built-in defaults hold exactly the six supported runtime
languages, each mapped to the templated GitHub release URL and the fixed
templated description. -/
theorem defaults_content_spec :
    defaults.names = ["dotnet", "java", "js", "python", "ruby", "ts"] ∧
    lookup defaults.t "dotnet" = some ⟨"dotnet",
      "https://github.com/getgauge/template-dotnet/releases/latest/download/dotnet.zip",
      "Template download information for gauge dotnet projects"⟩ ∧
    lookup defaults.t "java" = some ⟨"java",
      "https://github.com/getgauge/template-java/releases/latest/download/java.zip",
      "Template download information for gauge java projects"⟩ ∧
    lookup defaults.t "js" = some ⟨"js",
      "https://github.com/getgauge/template-js/releases/latest/download/js.zip",
      "Template download information for gauge js projects"⟩ ∧
    lookup defaults.t "python" = some ⟨"python",
      "https://github.com/getgauge/template-python/releases/latest/download/python.zip",
      "Template download information for gauge python projects"⟩ ∧
    lookup defaults.t "ruby" = some ⟨"ruby",
      "https://github.com/getgauge/template-ruby/releases/latest/download/ruby.zip",
      "Template download information for gauge ruby projects"⟩ ∧
    lookup defaults.t "ts" = some ⟨"ts",
      "https://github.com/getgauge/template-ts/releases/latest/download/ts.zip",
      "Template download information for gauge ts projects"⟩ := by
  refine ⟨by decide, by decide, by decide, by decide, by decide, by decide, by decide⟩

/-- Claim C10: when URI validation rejects the value, the public
`Update` returns the `InvalidTemplateLocation` error naming the key and
the write step is never reached, so the persisted file is unchanged. -/
theorem Update_atomic_spec (cfg : Option (List (String × String)))
    (name value : String) (hv : (parseRequestURI value).isNone = true) :
    Update cfg name value = (.error (.invalidTemplateLocation name), false) := by
  obtain ⟨t, ht⟩ := mergeTemplates_ok cfg
  simp only [Update, ht]
  rw [update_validate_fails t name value hv]

/-- Witness for C10 at the spec example value. -/
theorem Update_atomic_witness :
    Update none "flow" "not-a-url" = (.error (.invalidTemplateLocation "flow"), false) :=
  Update_atomic_spec none "flow" "not-a-url" (by decide)

end Template

namespace ProjectInit

/-! ### Claim theorems about the project initializer -/

/-- Claim C1 (amended): when the post-install command fails to launch,
every top-level path segment recorded by the mirror step is removed and
the call fails with the `PostInstallFailed` error, without deleting the
metadata file; when the command launches but exits non-zero, the wait error
is returned as is, with no rollback and likewise no metadata deletion. -/
theorem postinstall_rollback_spec (env : CopyEnv) (dir : String)
    (filesAdded : List String) (contents : String) (md : templateMetadata)
    (e : String)
    (h1 : getTemplateDir env.walk = .ok dir)
    (h2 : (if env.hasGitignore then env.appendResult else Except.ok ()) = .ok ())
    (h3 : env.mirrorResult = .ok filesAdded)
    (h4 : env.readResult = .ok contents)
    (h5 : env.parseResult = .ok md)
    (h6 : md.PostInstallCmd ≠ "") :
    (env.launchResult = .error e →
      copyTemplateContents env =
        (.error (.postInstallFailed e),
          filesAdded.map (fun f => .removeTopLevel (topSegment f))) ∧
      FsAction.removeMetadata ∉ (copyTemplateContents env).2) ∧
    (env.launchResult = .ok () → env.waitResult = .error e →
      copyTemplateContents env = (.error (.commandExitFailed e), [])) := by
  constructor
  · intro hl
    have hcopy : copyTemplateContents env =
        (.error (.postInstallFailed e),
          filesAdded.map (fun f => .removeTopLevel (topSegment f))) := by
      simp [copyTemplateContents, h1, h2, h3, h4, h5, h6, hl]
    refine ⟨hcopy, ?_⟩
    rw [hcopy]
    simp
  · intro hl hw
    simp [copyTemplateContents, h1, h2, h3, h4, h5, h6, hl, hw]

/-- Witness for C1 on `rollbackWitEnv`. -/
theorem postinstall_rollback_witness :
    copyTemplateContents rollbackWitEnv =
      (.error (.postInstallFailed "exec failure"),
        (["manifest.json", "specs/example.spec"].map
          (fun f => .removeTopLevel (topSegment f)))) ∧
    FsAction.removeMetadata ∉ (copyTemplateContents rollbackWitEnv).2 :=
  (postinstall_rollback_spec rollbackWitEnv "tmp/x"
      ["manifest.json", "specs/example.spec"] "metadata-json" ⟨"", "", "", "npm install", "done"⟩
      "exec failure" rfl rfl rfl rfl rfl (by decide)).1 rfl

/-- Counterexample to C1 as stated: on a non-zero exit of the post-install
command the mirrored top-level segments are not removed and the error is
the bare wait error, not the `PostInstallFailed` one. -/
theorem postinstall_rollback_cex :
    copyTemplateContents rollbackCexEnv =
      (.error (.commandExitFailed "exit status 1"), []) ∧
    (copyTemplateContents rollbackCexEnv).1 ≠
      .error (.postInstallFailed "exit status 1") ∧
    FsAction.removeTopLevel "specs" ∉ (copyTemplateContents rollbackCexEnv).2 ∧
    rollbackCexEnv.mirrorResult = .ok ["manifest.json", "specs/example.spec"] := by
  have h : copyTemplateContents rollbackCexEnv =
      (.error (.commandExitFailed "exit status 1"), []) := rfl
  refine ⟨h, ?_, ?_, rfl⟩
  · rw [h]
    simp
  · rw [h]
    simp

/-- Claim C2, evaluated at the failing input: with no manifest-holding
directory, `getTemplateDir` returns an empty template root with a nil
error, so `copyTemplateContents` does not fail with the
`does not contain required files` (`MalformedTemplate`) error and instead
proceeds to the mirror step, whose failure it reports. -/
theorem templateDir_missing_bug :
    getTemplateDir noManifestWalk = .ok "" ∧
    copyTemplateContents noManifestEnv =
      (.error (.mirrorFailed "lstat : no such file or directory"), []) :=
  ⟨rfl, rfl⟩

/-- Claim C7: when the URL parses but its scheme is not `https` and
insecure downloads are disallowed, initialization by URL or by name stops
with the insecure-download rejection whatever the download would have
returned; when insecure downloads are allowed, the URL gate passes and the
call proceeds to the fetch stage. -/
theorem checkURL_spec (env : InitEnv) (u : String) (pu : Template.URLParts)
    (hng : env.isGaugeProject = false)
    (hp : Template.parseRequestURI u = some pu)
    (hs : pu.scheme ≠ "https") :
    (env.allowInsecure = false →
      (∀ d, FromURL { env with downloadResult := d } u = .fatalInsecure) ∧
      (∀ cfg name, Template.Get cfg name = .ok u →
        FromTemplate env cfg name = .fatalInsecure)) ∧
    (env.allowInsecure = true → FromURL env u = initializeTemplate env) := by
  have hb : (pu.scheme != "https") = true := by simp [hs]
  constructor
  · intro ha
    have hcheck : checkURL env.allowInsecure u = .insecureRejected := by
      simp [checkURL, hp, ha, hb]
    constructor
    · intro d
      simp [FromURL, hng, hcheck]
    · intro cfg name hg
      simp [FromTemplate, hng, hg, hcheck]
  · intro ha
    have hcheck : checkURL env.allowInsecure u = .urlOk := by
      simp [checkURL, hp, ha]
    simp [FromURL, hng, hcheck]

/-- Witness for C7 at a plain-`http` URL with insecure downloads off. -/
theorem checkURL_witness :
    FromURL { checkURLWitEnv with downloadResult := Except.ok () }
      "http://example.com/t.zip" = .fatalInsecure :=
  ((checkURL_spec checkURLWitEnv "http://example.com/t.zip" ⟨"http", true⟩ rfl
      (by decide) (by decide)).1 rfl).1 (Except.ok ())

end ProjectInit
